import Mathlib

/-!
Verification development for the boltstore session store.

The embedding models:
  * the relevant fragment of the bbolt v1.3.7 bucket API (nested buckets,
    `Get`, `Bucket`, `Put`, `Delete`, `CreateBucketIfNotExists`) as operations
    on association lists of entries, where an entry is either a plain value
    (a byte list) or a nested bucket;
  * the store operations of the repository: `load` (load.go), `delete`,
    `New` (store.go), `save`, `Save` (the unnamed file with `Save`/`save`),
    and the reaper's per-tick work (`worker` in reaper.go), with one tick
    split into its read pass (`scanExpired`) and write pass (`deleteAllKeys`);
  * instants as integer nanoseconds since the Unix epoch (Go `time.Time`
    arithmetic at nanosecond precision), with `unixSec` for `Time.Unix()`
    and `secToNanos` for `time.Unix(sec, 0)`;
  * `strconv.ParseInt(s, 10, 64)` as `parseInt`, `strconv.FormatInt(n, 10)`
    as `formatInt`;
  * the session-identifier generation of `Save`:
    `strings.TrimRight(base32.StdEncoding.EncodeToString(key), "=")`
    as `genId` over the 32 random bytes.

External collaborators (the securecookie codec and the pluggable payload
serializer) are parameters of the operations that use them.
-/

namespace Boltstore

/-- Bytes are modelled as natural numbers; every use reduces them mod 256. -/
abbrev Bytes := List Nat

/-- A bbolt bucket entry: a plain value or a nested bucket. -/
inductive Entry where
  | val (bs : Bytes) : Entry
  | buck (m : List (String × Entry)) : Entry

/-- A bucket's contents: an association list from keys to entries
(bbolt iterates keys in sorted order; concrete states below are built
already sorted, and iteration follows list order). -/
abbrev BucketM := List (String × Entry)

/-- The contents of the root `sessions` bucket (created at store init). -/
abbrev Root := BucketM

/-- `keyValues = []byte("values")` from store.go. -/
def keyValues : String := "values"

/-- `keyExpiredAt = []byte("expired_at")` from store.go. -/
def keyExpiredAt : String := "expired_at"

/-- First-match association lookup. -/
def assocFind (m : BucketM) (k : String) : Option Entry :=
  match m with
  | [] => none
  | (k', e) :: rest => if k' = k then some e else assocFind rest k

/-- Replace the entry at `k` in place, or append a fresh one. -/
def assocSet (m : BucketM) (k : String) (e : Entry) : BucketM :=
  match m with
  | [] => [(k, e)]
  | (k', e') :: rest => if k' = k then (k, e) :: rest else (k', e') :: assocSet rest k e

/-- Remove the entry at `k` (first occurrence). -/
def assocErase (m : BucketM) (k : String) : BucketM :=
  match m with
  | [] => []
  | (k', e') :: rest => if k' = k then rest else (k', e') :: assocErase rest k

/-- bbolt `Bucket.Get`: nil when the key is absent or holds a nested bucket. -/
def bucketGet (m : BucketM) (k : String) : Option Bytes :=
  match assocFind m k with
  | some (.val bs) => some bs
  | _ => none

/-- bbolt `Bucket.Bucket`: nil when the key is absent or holds a plain value. -/
def subBucket (m : BucketM) (k : String) : Option BucketM :=
  match assocFind m k with
  | some (.buck b) => some b
  | _ => none

/-- bbolt `Bucket.Delete`: success without change when the key is absent,
`ErrIncompatibleValue` when the key holds a nested bucket, removal otherwise. -/
def bucketDelete (m : BucketM) (k : String) : Except String BucketM :=
  match assocFind m k with
  | none => .ok m
  | some (.buck _) => .error "incompatible value"
  | some (.val _) => .ok (assocErase m k)

/-- bbolt `Bucket.Put` (size ceilings elided: both keys used by the store are
short constants): `ErrKeyRequired` on the empty key, `ErrIncompatibleValue`
when the key holds a nested bucket, upsert otherwise. -/
def bucketPut (m : BucketM) (k : String) (v : Bytes) : Except String BucketM :=
  if k = "" then .error "key required"
  else
    match assocFind m k with
    | some (.buck _) => .error "incompatible value"
    | _ => .ok (assocSet m k (.val v))

/-- bbolt `Bucket.CreateBucketIfNotExists`: `ErrBucketNameRequired` on the
empty name, `ErrIncompatibleValue` when the key holds a plain value, the
existing bucket when present, a fresh empty bucket otherwise. -/
def createBucketIfNotExists (m : BucketM) (k : String) : Except String BucketM :=
  if k = "" then .error "bucket name required"
  else
    match assocFind m k with
    | some (.buck b) => .ok b
    | some (.val _) => .error "incompatible value"
    | none => .ok []

theorem assocFind_assocSet_self (m : BucketM) (k : String) (e : Entry) :
    assocFind (assocSet m k e) k = some e := by
  induction m with
  | nil => simp [assocSet, assocFind]
  | cons he rest ih =>
    obtain ⟨k', e'⟩ := he
    by_cases h : k' = k
    · simp [assocSet, assocFind, h]
    · simp [assocSet, assocFind, h, ih]

theorem assocFind_assocSet_ne (m : BucketM) (k k' : String) (e : Entry)
    (h : k' ≠ k) : assocFind (assocSet m k e) k' = assocFind m k' := by
  have h2 : ¬(k = k') := fun hk => h hk.symm
  induction m with
  | nil => simp [assocSet, assocFind, h2]
  | cons he rest ih =>
    obtain ⟨k0, e0⟩ := he
    by_cases h0 : k0 = k
    · subst h0
      simp [assocSet, assocFind, h2]
    · by_cases h1 : k0 = k'
      · simp [assocSet, assocFind, h0, h1, h]
      · simp [assocSet, assocFind, h0, h1, ih]

/-! ### Time and number formatting -/

/-- One second in nanoseconds. -/
def giga : Int := 1000000000

/-- Go `time.Unix(sec, 0)` as an instant in nanoseconds. -/
def secToNanos (sec : Int) : Int := sec * giga

/-- Go `Time.Unix()` of an instant in nanoseconds: the floored second count
(Go stores seconds plus a nanosecond remainder in `[0, 1e9)`). -/
def unixSec (tNanos : Int) : Int := Int.fdiv tNanos giga

/-- ASCII value of a decimal digit, `none` for a non-digit byte
(`strconv` accepts only `0`-`9` in base 10). -/
def digitVal (c : Nat) : Option Nat :=
  if 48 ≤ c ∧ c ≤ 57 then some (c - 48) else none

/-- Accumulate decimal digits; fails on the first non-digit. -/
def parseDigitsAux (acc : Nat) : Bytes → Option Nat
  | [] => some acc
  | c :: rest =>
    match digitVal c with
    | none => none
    | some d => parseDigitsAux (acc * 10 + d) rest

/-- Go `strconv.ParseInt(string(bs), 10, 64)`: optional sign, at least one
digit, all digits decimal, result within the signed 64-bit range.  Any
failure (including range overflow) is `none`, matching the code's use of
only `err != nil`. -/
def parseInt (bs : Bytes) : Option Int :=
  match bs with
  | [] => none
  | b :: rest =>
    let signed := if b = 43 then (false, rest)
      else if b = 45 then (true, rest)
      else (false, b :: rest)
    match signed.2 with
    | [] => none
    | _ =>
      match parseDigitsAux 0 signed.2 with
      | none => none
      | some n =>
        if signed.1 then
          if n ≤ 2 ^ 63 then some (-(n : Int)) else none
        else
          if n ≤ 2 ^ 63 - 1 then some (n : Int) else none

/-- Go `strconv.FormatInt(n, 10)` as ASCII bytes. -/
def formatInt (n : Int) : Bytes :=
  if n < 0 then 45 :: (Nat.toDigits 10 n.natAbs).map Char.toNat
  else (Nat.toDigits 10 n.natAbs).map Char.toNat

/-- ASCII bytes of a string (used to build concrete stored values). -/
def strBytes (s : String) : Bytes := s.toList.map Char.toNat

/-! ### load (load.go) -/

/-- Errors `load` can return: the missing-namespace error
(`invalid session bucket %s/%s`) or a deserialization failure. -/
inductive LoadErr where
  | invalidSession : LoadErr
  | deserialize : LoadErr

/-- Result of `load`: the `exists` boolean the Go function returns, the
error, and the payload deserialized into the session (for the model). -/
structure LoadRes (P : Type) where
  found : Bool
  err : Option LoadErr
  payload : Option P

/-- `load` from load.go: inside one read transaction, look up the session's
sub-bucket under the root bucket (nil is a hard error), then `Get` the
`values` entry (nil means "no data, no error"), then deserialize via the
configured serializer (`deser` parameterizes the pluggable codec). -/
def load {P : Type} (root : Root) (id : String) (deser : Bytes → Option P) :
    LoadRes P :=
  match subBucket root id with
  | none => ⟨false, some .invalidSession, none⟩
  | some b =>
    match bucketGet b keyValues with
    | none => ⟨false, none, none⟩
    | some data =>
      match deser data with
      | none => ⟨false, some .deserialize, none⟩
      | some p => ⟨true, none, some p⟩

/-! ### New (store.go) -/

/-- Errors `New` can return: a `securecookie.DecodeMulti` failure or the
error of `load`. -/
inductive NewErr where
  | decode (msg : String) : NewErr
  | load (e : LoadErr) : NewErr

/-- Result of `New`: the session's `IsNew` flag, its ID, the recovered
payload (the session's values), and the returned error. -/
structure NewRes (P : Type) where
  isNew : Bool
  sid : String
  payload : Option P
  err : Option NewErr

/-- `New` from store.go: a fresh session starts with `IsNew = true`; when a
cookie with the session's name is present (`cookie = some v`), decode it via
the external codec (`decode` parameterizes `securecookie.DecodeMulti`); on
success attempt `load` and set `IsNew = !(err == nil && ok)`; the last error
encountered is returned alongside the session. -/
def New {P : Type} (root : Root) (cookie : Option String)
    (decode : String → Except String String) (deser : Bytes → Option P) :
    NewRes P :=
  match cookie with
  | none => ⟨true, "", none, none⟩
  | some v =>
    match decode v with
    | .error m => ⟨true, "", none, some (.decode m)⟩
    | .ok id =>
      let r := load root id deser
      ⟨!(r.err.isNone && r.found), id, r.payload, r.err.map .load⟩

/-! ### delete (store.go) -/

/-- `delete` from store.go: inside one write transaction, look up the
session's sub-bucket (nil is the `invalid session bucket` error), then call
`bucket.Delete([]byte(session.ID))` — note: this deletes the key named by
the session ID *inside the session's own sub-bucket*, not the sub-bucket
from the root. -/
def delete (root : Root) (id : String) : Except String Root :=
  match subBucket root id with
  | none => .error ("invalid session bucket " ++ id)
  | some b =>
    match bucketDelete b id with
    | .error m => .error m
    | .ok b' => .ok (assocSet root id (.buck b'))

/-! ### Identifier generation (from `Save`):
`strings.TrimRight(base32.StdEncoding.EncodeToString(GenerateRandomKey(32)), "=")` -/

/-- The standard base-32 alphabet of `encoding/base32`. -/
def b32alpha : List Char := "ABCDEFGHIJKLMNOPQRSTUVWXYZ234567".toList

/-- A byte group as a big-endian number (bytes reduced mod 256 as `uint8`). -/
def groupVal (g : Bytes) : Nat := g.foldl (fun a b => a * 256 + b % 256) 0

/-- The data characters of one base-32 group of up to five bytes: the group
is left-aligned in a 40-bit window and the top `ceil(8*len/5)` five-bit
chunks are mapped through the alphabet. -/
def encGroup (g : Bytes) : List Char :=
  (List.range ((g.length * 8 + 4) / 5)).map
    (fun i => b32alpha.getD (groupVal g * 256 ^ (5 - g.length) / 32 ^ (7 - i) % 32) 'A')

/-- One encoded group padded with `=` to eight characters, as
`encoding/base32` emits it. -/
def encGroupPad (g : Bytes) : List Char :=
  encGroup g ++ List.replicate (8 - (g.length * 8 + 4) / 5) '='

/-- `base32.StdEncoding.EncodeToString`: encode five-byte groups in order. -/
def base32Std (bs : Bytes) : List Char :=
  if h : bs = [] then []
  else encGroupPad (bs.take 5) ++ base32Std (bs.drop 5)
termination_by bs.length
decreasing_by
  simp only [List.length_drop]
  have := List.length_pos.mpr h
  omega

/-- `strings.TrimRight(s, "=")`. -/
def trimEq (cs : List Char) : List Char :=
  (cs.reverse.dropWhile (fun c => c == '=')).reverse

/-- The generated session identifier, as a function of the 32 random bytes
returned by `securecookie.GenerateRandomKey(32)`. -/
def genId (key : Bytes) : List Char := trimEq (base32Std key)

/-! ### save and Save (the unnamed source file) -/

/-- The failure cases of `save`/`Save`. -/
inductive SaveErr where
  | deleteFailed (msg : String) : SaveErr
  | serialize : SaveErr
  | tooBig : SaveErr
  | storage (msg : String) : SaveErr
  | encodeFailed (msg : String) : SaveErr

/-- Lower-case `save`: serialize the session (`ser` parameterizes the
pluggable serializer); reject when `MaxLength != 0 && len(b) > MaxLength`
(`SessionStore: the value to store is too big`); compute
`expired_at = FormatInt(now.Add(SessionExpire).Unix(), 10)`; then in one
write transaction `CreateBucketIfNotExists` the session's sub-bucket and
`Put` the `values` and `expired_at` entries. -/
def save {P : Type} (root : Root) (id : String) (payload : P)
    (ser : P → Option Bytes) (maxLength : Int) (now lifetime : Int) :
    Except SaveErr Root :=
  match ser payload with
  | none => .error .serialize
  | some b =>
    if maxLength ≠ 0 ∧ (b.length : Int) > maxLength then .error .tooBig
    else
      let expiredAt := formatInt (unixSec (now + lifetime))
      match createBucketIfNotExists root id with
      | .error m => .error (.storage m)
      | .ok rec0 =>
        match bucketPut rec0 keyValues b with
        | .error m => .error (.storage m)
        | .ok rec1 =>
          match bucketPut rec1 keyExpiredAt expiredAt with
          | .error m => .error (.storage m)
          | .ok rec2 => .ok (assocSet root id (.buck rec2))

/-- Result of `Save`: the store state after the call (write transactions
roll back on error, and the size check fires before the transaction), the
cookie directive set on the response (value and max-age), the returned
error, and the session's ID after the call. -/
structure SaveRes where
  root : Root
  cookie : Option (String × Int)
  err : Option SaveErr
  sid : String

/-- Capital `Save`: when `session.Options.MaxAge <= 0`, `delete` the record
and set a cookie with the empty value and the session's (non-positive)
max-age; otherwise generate an ID when empty (`genId` of the 32 random
bytes `randKey`), `save`, then seal the ID with the external codec
(`encode` parameterizes `securecookie.EncodeMulti`) and set the cookie. -/
def Save {P : Type} (root : Root) (sessId : String) (maxAge : Int)
    (payload : P) (ser : P → Option Bytes) (maxLength : Int)
    (now lifetime : Int) (randKey : Bytes)
    (encode : String → Except String String) : SaveRes :=
  if maxAge ≤ 0 then
    match delete root sessId with
    | .error m => ⟨root, none, some (.deleteFailed m), sessId⟩
    | .ok root' => ⟨root', some ("", maxAge), none, sessId⟩
  else
    let id := if sessId = "" then (genId randKey).asString else sessId
    match save root id payload ser maxLength now lifetime with
    | .error e => ⟨root, none, some e, id⟩
    | .ok root' =>
      match encode id with
      | .error m => ⟨root', none, some (.encodeFailed m), id⟩
      | .ok token => ⟨root', some (token, maxAge), none, id⟩

/-! ### The reaper (`worker` in reaper.go) -/

/-- The read-pass classification of one session sub-bucket, from the body of
the `ForEach` callback: read the `expired_at` entry, and mark expired when
`strconv.ParseInt` fails or the parsed instant `time.Unix(t, 0)` is strictly
`Before` the scan's `time.Now()`.  (The code first sets `isExpired = true`
when the entry is nil, but that assignment is always overwritten: `ParseInt`
of the resulting empty string fails, landing in the same branch.) -/
def classifyExpired (rec : BucketM) (now : Int) : Bool :=
  let ev := bucketGet rec keyExpiredAt
  match parseInt (ev.getD []) with
  | none => true
  | some t => decide (secToNanos t < now)

/-- The read pass of one tick: `bucket.ForEach` over the root bucket in key
order, buffering the keys of expired session sub-buckets (the deferred
append).  A child that is not a sub-bucket makes the callback return the
`invalid session bucket ... for reap` error, which stops the iteration —
but the keys already buffered are kept, and the code discards `ForEach`'s
return value (`bucket.ForEach(...)` is called without assigning its
result), so this error never propagates out of the view transaction. -/
def scanExpired (root : Root) (now : Int) : List String × Option String :=
  match root with
  | [] => ([], none)
  | (k, e) :: rest =>
    match e with
    | .val _ => ([], some ("invalid session bucket " ++ k ++ " for reap"))
    | .buck rec =>
      let r := scanExpired rest now
      if classifyExpired rec now then (k :: r.1, r.2) else r

/-- The write pass of one tick: `b.Delete(key)` for each buffered key inside
one update transaction; the first failure aborts (and rolls back) the whole
transaction. -/
def deleteAllKeys (root : Root) : List String → Except String Root
  | [] => .ok root
  | k :: rest =>
    match bucketDelete root k with
    | .error m => .error m
    | .ok root' => deleteAllKeys root' rest

/-- The observable outcome of one tick of `worker`: the store state after
the tick; what the `obtain expired sessions error` log line reports (the
view transaction's error — always nil here, because the closure ignores
`ForEach`'s result and returns nil); the mid-scan abort error itself, which
the code computes and then discards unlogged; whether the write pass ran
(the code enters the update transaction iff the buffer is non-empty); and
the write-pass error, which IS logged (`remove expired sessions error`). -/
structure TickRes where
  root : Root
  loggedReadErr : Option String
  scanAbort : Option String
  writeAttempted : Bool
  writeErr : Option String

/-- One tick of `worker`: run the read pass — the view closure returns nil
regardless of a `ForEach` abort, so the logged read error is nil and the
abort is silently dropped; when the buffered key list is non-empty run the
write pass, keeping the old state when the update transaction fails (bolt
rolls it back).  No failure leaves the loop. -/
def reaperTick (root : Root) (now : Int) : TickRes :=
  let s := scanExpired root now
  if 0 < s.1.length then
    match deleteAllKeys root s.1 with
    | .error m => ⟨root, none, s.2, true, some m⟩
    | .ok root' => ⟨root', none, s.2, true, none⟩
  else ⟨root, none, s.2, false, none⟩

/-- The `worker` loop over a schedule of tick instants (the `for`/`select`
loop runs one tick per timer signal until the context is cancelled; tick
failures never leave the loop). -/
def worker (root : Root) : List Int → Root × List TickRes
  | [] => (root, [])
  | now :: rest =>
    let t := reaperTick root now
    let r := worker t.root rest
    (r.1, t :: r.2)

/-! ### Concrete states used by closed theorems -/

/-- A root bucket with one saved record under ID `X`. -/
def c1root : Root :=
  [("X", .buck [(keyValues, .val [1, 2]), (keyExpiredAt, .val (strBytes "999"))])]

/-- A root bucket with one record under `A` whose expiry is the epoch. -/
def c2root : Root :=
  [("A", .buck [(keyValues, .val [7]), (keyExpiredAt, .val (strBytes "0"))])]

/-- A record whose `expired_at` parses to 100 seconds. -/
def c3rec : BucketM := [(keyExpiredAt, .val (strBytes "100"))]

/-- A root with a record `S` holding values, and an empty record `T`. -/
def c5root : Root := [("S", .buck [(keyValues, .val [9])]), ("T", .buck [])]

/-- A root with an expired record `A` followed by a plain-value child `B`
(the malformed child aborts the reaper's read pass after `A` is buffered). -/
def c8root : Root :=
  [("A", .buck [(keyExpiredAt, .val (strBytes "0"))]), ("B", .val [1])]

/-! ### Claim theorems -/

/-- C10: when the request carries no cookie with the session's name, `New`
returns a fresh session — `IsNew` true, empty ID, no values — and a nil
error: the absent cookie is not reported as an error. -/
theorem C10_new_without_cookie {P : Type} (root : Root)
    (decode : String → Except String String) (deser : Bytes → Option P) :
    New root none decode deser = ⟨true, "", none, none⟩ := rfl

/-- C5: `load` distinguishes the three cases: an absent session namespace is
the hard `invalid session bucket` error; an existing namespace without a
`values` entry is found-false with no error; an existing namespace whose
`values` entry deserializes is found-true with no error. -/
theorem C5_load_cases {P : Type} (root : Root) (id : String)
    (deser : Bytes → Option P) :
    (subBucket root id = none →
        load root id deser = ⟨false, some .invalidSession, none⟩)
      ∧ (∀ b, subBucket root id = some b → bucketGet b keyValues = none →
          load root id deser = ⟨false, none, none⟩)
      ∧ (∀ b d p, subBucket root id = some b → bucketGet b keyValues = some d →
          deser d = some p → load root id deser = ⟨true, none, some p⟩) := by
  refine ⟨?_, ?_, ?_⟩
  · intro h
    simp [load, h]
  · intro b hb hv
    simp [load, hb, hv]
  · intro b d p hb hv hd
    simp [load, hb, hv, hd]

/-- Witness for C5 on a concrete store: a missing namespace `U`, an existing
but empty namespace `T`, and a populated namespace `S`. -/
theorem C5_load_cases_witness :
    load (P := Nat) c5root "U" (fun _ => some 5) = ⟨false, some .invalidSession, none⟩
      ∧ load (P := Nat) c5root "T" (fun _ => some 5) = ⟨false, none, none⟩
      ∧ load (P := Nat) c5root "S" (fun _ => some 5) = ⟨true, none, some 5⟩ :=
  ⟨(C5_load_cases c5root "U" _).1 rfl,
   (C5_load_cases c5root "T" _).2.1 [] rfl rfl,
   (C5_load_cases c5root "S" _).2.2 [(keyValues, .val [9])] [9] 5 rfl rfl rfl⟩

/-- C6: `New` marks the session not-new exactly when a cookie was present,
its token decoded, and `load` recovered stored values without error; on a
decode failure or a `load` error after a cookie was present, the underlying
error is returned alongside the fresh (new) session. -/
theorem C6_new_recovery {P : Type} (root : Root) (cookie : Option String)
    (decode : String → Except String String) (deser : Bytes → Option P) :
    ((New root cookie decode deser).isNew = false ↔
        (∃ v id, cookie = some v ∧ decode v = .ok id ∧
          (load root id deser).found = true ∧ (load root id deser).err = none))
      ∧ (∀ v m, cookie = some v → decode v = .error m →
          (New root cookie decode deser).isNew = true
            ∧ (New root cookie decode deser).err = some (.decode m))
      ∧ (∀ v id e, cookie = some v → decode v = .ok id →
          (load root id deser).err = some e →
          (New root cookie decode deser).isNew = true
            ∧ (New root cookie decode deser).err = some (.load e)) := by
  refine ⟨?_, ?_, ?_⟩
  · cases hc : cookie with
    | none => simp [New]
    | some v =>
      cases hd : decode v with
      | error m => simp [New, hd]
      | ok id =>
        cases he : (load root id deser).err with
        | none => simp [New, hd, he]
        | some e => simp [New, hd, he]
  · intro v m hc hd
    subst hc
    simp [New, hd]
  · intro v id e hc hd he
    subst hc
    simp [New, hd, he]

/-- Witness for C6: a present cookie whose token fails to decode yields a
new session carrying the decode error. -/
theorem C6_new_recovery_witness :
    (New (P := Nat) c5root (some "c") (fun _ => .error "bad") (fun _ => some 5)).isNew = true
      ∧ (New (P := Nat) c5root (some "c") (fun _ => .error "bad") (fun _ => some 5)).err
          = some (.decode "bad") :=
  (C6_new_recovery c5root (some "c") (fun _ => .error "bad") (fun _ => some 5)).2.1
    "c" "bad" rfl rfl

/-- C1: saving a session whose MaxAge is non-positive does NOT remove the
backing record.  `delete` calls `bucket.Delete([]byte(session.ID))` on the
session's *own* sub-bucket, whose entries are `values`/`expired_at`; the key
named by the ID does not exist there, so the delete is a no-op and `Save`
reports success with the record fully intact (the clearing cookie with empty
value and non-positive max-age IS set, and an absent namespace IS surfaced
as the invalid-session error, as the claim says). -/
theorem C1_save_nonpositive_keeps_record :
    Save (P := Nat) c1root "X" 0 0 (fun _ => some []) 0 0 0 []
        (fun _ => .ok "t") = ⟨c1root, some ("", 0), none, "X"⟩
      ∧ subBucket c1root "X"
          = some [(keyValues, .val [1, 2]), (keyExpiredAt, .val (strBytes "999"))]
      ∧ bucketGet [(keyValues, .val [1, 2]), (keyExpiredAt, .val (strBytes "999"))]
          keyValues = some [1, 2]
      ∧ (Save (P := Nat) [] "Y" 0 0 (fun _ => some []) 0 0 0 []
          (fun _ => .ok "t")).err = some (.deleteFailed "invalid session bucket Y") :=
  ⟨rfl, rfl, rfl, rfl⟩

/-- C2: the reaper cannot remove any record.  Records are nested buckets,
and the write pass calls `Bucket.Delete` (not `DeleteBucket`), which bbolt
rejects with `ErrIncompatibleValue`; the update transaction aborts and the
expired record survives the tick: here `A` is expired at the scan instant
(60 s, `expired_at` = 0 strictly in the past), yet the tick leaves the store
unchanged and logs the write-pass error. -/
theorem C2_reaper_tick_deletes_nothing :
    classifyExpired [(keyValues, .val [7]), (keyExpiredAt, .val (strBytes "0"))]
        (secToNanos 60) = true
      ∧ reaperTick c2root (secToNanos 60) = ⟨c2root, none, none, true, some "incompatible value"⟩
      ∧ subBucket c2root "A"
          = some [(keyValues, .val [7]), (keyExpiredAt, .val (strBytes "0"))] :=
  ⟨rfl, rfl, rfl⟩

/-- C3 counterexample: the claim says a record whose `expired_at` parses to
an instant *at or before* the scan instant is marked expired; the code uses
strict `Before`.  A record whose parsed expiry equals the scan instant
exactly is at-or-before it, yet the classification is false. -/
theorem C3_boundary_not_expired :
    bucketGet c3rec keyExpiredAt = some (strBytes "100")
      ∧ parseInt (strBytes "100") = some 100
      ∧ secToNanos 100 ≤ secToNanos 100
      ∧ classifyExpired c3rec (secToNanos 100) = false :=
  ⟨rfl, rfl, le_refl _, rfl⟩

/-- C3 (amended): the read-pass classification marks a record expired iff
its `expired_at` entry is missing, or unparsable as a decimal 64-bit
integer, or parses to an instant strictly before the scan instant. -/
theorem C3_classification (rec : BucketM) (now : Int) :
    classifyExpired rec now = true ↔
      (bucketGet rec keyExpiredAt = none
        ∨ (∃ bs, bucketGet rec keyExpiredAt = some bs ∧ parseInt bs = none)
        ∨ (∃ bs t, bucketGet rec keyExpiredAt = some bs ∧ parseInt bs = some t
            ∧ secToNanos t < now)) := by
  unfold classifyExpired
  cases hev : bucketGet rec keyExpiredAt with
  | none => simp [hev, parseInt]
  | some bs =>
    cases hp : parseInt bs with
    | none => simp [hev, hp]
    | some t => simp [hev, hp]

/-- C8 counterexample: the claim says a read-pass failure is logged and
prevents the write pass of the same tick.  With an expired record `A`
buffered before the malformed child `B` aborts the scan, the read pass does
fail mid-scan — yet nothing is logged for it (the code discards `ForEach`'s
error and the view closure returns nil), and the write pass still runs
(itself failing on the nested bucket). -/
theorem C8_read_failure_write_still_runs :
    (reaperTick c8root (secToNanos 60)).scanAbort = some "invalid session bucket B for reap"
      ∧ (reaperTick c8root (secToNanos 60)).loggedReadErr = none
      ∧ (reaperTick c8root (secToNanos 60)).writeAttempted = true
      ∧ (reaperTick c8root (secToNanos 60)).writeErr = some "incompatible value" :=
  ⟨rfl, rfl, rfl, rfl⟩

/-- C8 (amended): a write-pass failure is logged and that tick's deletions
are rolled back; a mid-scan read-pass failure is silently discarded — never
logged — and does not prevent the write pass, which runs exactly when keys
were buffered before the failure; and the reaper loop never terminates
because of a tick's failure: every scheduled tick executes. -/
theorem C8_tick_isolation (root : Root) (now : Int) (nows : List Int) :
    ((worker root nows).2.length = nows.length)
      ∧ ((reaperTick root now).loggedReadErr = none)
      ∧ ((reaperTick root now).scanAbort = (scanExpired root now).2)
      ∧ ((reaperTick root now).writeAttempted
          = decide (0 < (scanExpired root now).1.length))
      ∧ (∀ m, deleteAllKeys root (scanExpired root now).1 = .error m →
          (reaperTick root now).root = root
            ∧ (reaperTick root now).writeErr = some m) := by
  refine ⟨?_, ?_, ?_, ?_, ?_⟩
  · induction nows generalizing root with
    | nil => rfl
    | cons a rest ih => simp [worker, ih]
  · unfold reaperTick
    by_cases h : 0 < (scanExpired root now).1.length
    · rw [if_pos h]
      cases deleteAllKeys root (scanExpired root now).1 <;> rfl
    · rw [if_neg h]
  · unfold reaperTick
    by_cases h : 0 < (scanExpired root now).1.length
    · rw [if_pos h]
      cases deleteAllKeys root (scanExpired root now).1 <;> rfl
    · rw [if_neg h]
  · unfold reaperTick
    by_cases h : 0 < (scanExpired root now).1.length
    · rw [if_pos h]
      cases deleteAllKeys root (scanExpired root now).1 <;> simp [h]
    · rw [if_neg h]
      simp [h]
  · intro m hm
    unfold reaperTick
    by_cases h : 0 < (scanExpired root now).1.length
    · rw [if_pos h, hm]
      exact ⟨rfl, rfl⟩
    · have hnil : (scanExpired root now).1 = [] :=
        List.eq_nil_of_length_eq_zero (by omega)
      rw [hnil] at hm
      simp [deleteAllKeys] at hm

/-- Witness for the rollback part of the amended C8: on the store whose
scan buffers `A` before aborting, the write pass fails and the tick leaves
the store unchanged while logging the write error. -/
theorem C8_tick_isolation_witness :
    (reaperTick c8root (secToNanos 60)).root = c8root
      ∧ (reaperTick c8root (secToNanos 60)).writeErr = some "incompatible value" :=
  (C8_tick_isolation c8root (secToNanos 60) []).2.2.2.2 "incompatible value" rfl

/-- A successful `Put` upserts the entry in place. -/
theorem bucketPut_eq_ok (m : BucketM) (k : String) (v : Bytes) (m' : BucketM)
    (h : bucketPut m k v = .ok m') : m' = assocSet m k (.val v) := by
  unfold bucketPut at h
  split at h
  · cases h
  · split at h
    · cases h
    · injection h with h'
      exact h'.symm

/-- C4: with a positive MaxLength, a serialized payload longer than
MaxLength makes `Save` fail with the too-big error before any storage
write — the store state is unchanged and no cookie is set — and with
MaxLength zero the size check never fires. -/
theorem C4_maxLength {P : Type} (root : Root) (sessId id : String)
    (maxAge : Int) (payload : P) (ser : P → Option Bytes) (b : Bytes)
    (maxLength now lifetime : Int) (randKey : Bytes)
    (encode : String → Except String String) :
    (0 < maxAge → 0 < maxLength → ser payload = some b →
        maxLength < (b.length : Int) →
        Save root sessId maxAge payload ser maxLength now lifetime randKey encode
          = ⟨root, none, some .tooBig,
              if sessId = "" then (genId randKey).asString else sessId⟩)
      ∧ save root id payload ser 0 now lifetime ≠ .error .tooBig := by
  constructor
  · intro hA hM hs hb
    have hA' : ¬maxAge ≤ 0 := not_le.mpr hA
    have hsave : save root (if sessId = "" then (genId randKey).asString else sessId)
        payload ser maxLength now lifetime = .error .tooBig := by
      unfold save
      rw [hs]
      dsimp only
      rw [if_pos ⟨ne_of_gt hM, hb⟩]
    unfold Save
    rw [if_neg hA']
    simp only [hsave]
  · intro hcontra
    unfold save at hcontra
    split at hcontra
    · cases hcontra
    · split at hcontra
      · rename_i hcond
        exact absurd hcond (by simp)
      · split at hcontra
        · cases hcontra
        · split at hcontra
          · cases hcontra
          · dsimp only at hcontra
            split at hcontra
            · cases hcontra
            · cases hcontra

/-- Witness for C4: a two-byte payload against a one-byte ceiling is
rejected with the store untouched, while the same save under an unlimited
(zero) ceiling never produces the too-big error. -/
theorem C4_maxLength_witness :
    Save (P := Nat) [] "ID" 1 0 (fun _ => some [0, 0]) 1 0 0 []
        (fun _ => .ok "t")
        = ⟨[], none, some .tooBig, if "ID" = "" then (genId []).asString else "ID"⟩
      ∧ save (P := Nat) [] "ID" 0 (fun _ => some [0, 0]) 0 0 0 ≠ .error .tooBig :=
  ⟨(C4_maxLength (P := Nat) [] "ID" "ID" 1 0 (fun _ => some [0, 0]) [0, 0] 1 0 0 []
      (fun _ => .ok "t")).1 (by decide) (by decide) rfl (by decide),
   (C4_maxLength (P := Nat) [] "ID" "ID" 1 0 (fun _ => some [0, 0]) [0, 0] 1 0 0 []
      (fun _ => .ok "t")).2⟩

/-- C7: every successful `save` with the session's ID leaves, under the root
namespace, a sub-bucket for the ID holding exactly the upserted entries:
`values` with the serialized payload bytes and `expired_at` with the decimal
encoding of the Unix seconds of the save instant plus the lifetime. -/
theorem C7_save_layout {P : Type} (root : Root) (id : String) (payload : P)
    (ser : P → Option Bytes) (maxLength now lifetime : Int) (root' : Root)
    (h : save root id payload ser maxLength now lifetime = .ok root') :
    ∃ b rec, ser payload = some b ∧ subBucket root' id = some rec
      ∧ bucketGet rec keyValues = some b
      ∧ bucketGet rec keyExpiredAt = some (formatInt (unixSec (now + lifetime))) := by
  unfold save at h
  split at h
  · cases h
  · rename_i b hs
    split at h
    · cases h
    · split at h
      · cases h
      · rename_i rec0 h1
        split at h
        · cases h
        · rename_i rec1 h2
          dsimp only at h
          split at h
          · cases h
          · rename_i rec2 h3
            injection h with h4
            subst h4
            have e2 : rec2 = assocSet rec1 keyExpiredAt
                (.val (formatInt (unixSec (now + lifetime)))) :=
              bucketPut_eq_ok rec1 keyExpiredAt _ rec2 h3
            have e1 : rec1 = assocSet rec0 keyValues (.val b) :=
              bucketPut_eq_ok rec0 keyValues b rec1 h2
            refine ⟨b, rec2, hs, ?_, ?_, ?_⟩
            · simp [subBucket, assocFind_assocSet_self]
            · have hne : keyValues ≠ keyExpiredAt := by decide
              rw [e2, e1]
              unfold bucketGet
              rw [assocFind_assocSet_ne _ _ _ _ hne, assocFind_assocSet_self]
            · rw [e2]
              unfold bucketGet
              rw [assocFind_assocSet_self]

/-- Witness for C7: a concrete successful save of payload `[1]` at the epoch
with zero lifetime stores `values = [1]` and `expired_at = "0"`. -/
theorem C7_save_layout_witness :
    ∃ b rec, (fun _ : Nat => some [1]) 0 = some b
      ∧ subBucket [("X", Entry.buck [(keyValues, .val [1]), (keyExpiredAt, .val [48])])]
          "X" = some rec
      ∧ bucketGet rec keyValues = some b
      ∧ bucketGet rec keyExpiredAt = some (formatInt (unixSec (0 + 0))) :=
  C7_save_layout [] "X" 0 (fun _ => some [1]) 0 0 0
    [("X", Entry.buck [(keyValues, .val [1]), (keyExpiredAt, .val [48])])] rfl

/-! ### C9: the identifier encoding -/

/-- Every index below 32 selects an alphabet character. -/
theorem b32alpha_getD_mem (j : Nat) (hj : j < 32) : b32alpha.getD j 'A' ∈ b32alpha := by
  revert j
  decide

/-- Characters emitted for a group all come from the alphabet. -/
theorem encGroup_mem (g : Bytes) (c : Char) (hc : c ∈ encGroup g) : c ∈ b32alpha := by
  unfold encGroup at hc
  simp only [List.mem_map, List.mem_range] at hc
  obtain ⟨i, _, rfl⟩ := hc
  exact b32alpha_getD_mem _ (Nat.mod_lt _ (by norm_num))

/-- No alphabet character is the padding character. -/
theorem b32alpha_ne_pad (c : Char) (hc : c ∈ b32alpha) : c ≠ '=' := by
  revert hc
  revert c
  decide

/-- Number of data characters of one group. -/
theorem encGroup_length (g : Bytes) : (encGroup g).length = (g.length * 8 + 4) / 5 := by
  simp [encGroup]

theorem dropWhile_replicate_append (n : Nat) (ys : List Char) :
    List.dropWhile (fun c => c == '=') (List.replicate n '=' ++ ys)
      = List.dropWhile (fun c => c == '=') ys := by
  induction n with
  | zero => simp
  | succ k ih => simpa [List.replicate_succ, List.dropWhile_cons] using ih

theorem dropWhile_eq_self_of_ne (xs : List Char) (h : ∀ c ∈ xs, c ≠ '=') :
    List.dropWhile (fun c => c == '=') xs = xs := by
  cases xs with
  | nil => rfl
  | cons a t =>
    rw [List.dropWhile_cons]
    have ha : (a == '=') = false := beq_eq_false_iff_ne.mpr (h a (List.mem_cons_self a t))
    rw [ha]
    simp

/-- Trimming trailing padding from data characters followed by padding
recovers exactly the data characters. -/
theorem trimEq_append_replicate (xs : List Char) (n : Nat)
    (h : ∀ c ∈ xs, c ≠ '=') :
    trimEq (xs ++ List.replicate n '=') = xs := by
  unfold trimEq
  rw [List.reverse_append, List.reverse_replicate, dropWhile_replicate_append,
    dropWhile_eq_self_of_ne xs.reverse (fun c hc => h c (List.mem_reverse.mp hc)),
    List.reverse_reverse]

/-- Dropping one full five-byte group shifts the data-character and
group counts by exactly eight and one. -/
theorem div5_shift (L : Nat) (h : 5 < L) :
    (L * 8 + 4) / 5 = ((L - 5) * 8 + 4) / 5 + 8
      ∧ (L + 4) / 5 = (L - 5 + 4) / 5 + 1 := by
  have h5 : L % 5 = 0 ∨ L % 5 = 1 ∨ L % 5 = 2 ∨ L % 5 = 3 ∨ L % 5 = 4 := by omega
  rcases h5 with h5 | h5 | h5 | h5 | h5 <;> exact ⟨by omega, by omega⟩

/-- Structure of a full encoding: data characters from the alphabet followed
by the padding, with the exact count of each determined by the input
length. -/
theorem base32Std_structure (bs : Bytes) :
    ∃ pre, base32Std bs
        = pre ++ List.replicate (((bs.length + 4) / 5) * 8 - (bs.length * 8 + 4) / 5) '='
      ∧ (∀ c ∈ pre, c ∈ b32alpha) ∧ pre.length = (bs.length * 8 + 4) / 5 := by
  induction bs using base32Std.induct with
  | case1 =>
    refine ⟨[], ?_, ?_, ?_⟩ <;> simp [base32Std]
  | case2 bs hne ih =>
    obtain ⟨pre', hpre', hmem', hlen'⟩ := ih
    have hL : 0 < bs.length := List.length_pos.mpr hne
    rw [base32Std, dif_neg hne, hpre']
    by_cases h5 : bs.length ≤ 5
    · have hdrop : bs.drop 5 = [] := List.drop_eq_nil_of_le h5
      have htake : bs.take 5 = bs := List.take_of_length_le h5
      have hpre0 : pre' = [] := by
        apply List.eq_nil_of_length_eq_zero
        rw [hlen', hdrop]
        simp
      refine ⟨encGroup bs, ?_, fun c hc => encGroup_mem _ c hc, ?_⟩
      · rw [htake, hpre0, hdrop]
        unfold encGroupPad
        simp only [List.length_nil, List.nil_append, List.append_assoc]
        congr 1
        rw [← List.replicate_add]
        congr 1
        omega
      · rw [encGroup_length]
    · push_neg at h5
      have htakelen : (bs.take 5).length = 5 := by
        rw [List.length_take]
        omega
      have hdroplen : (bs.drop 5).length = bs.length - 5 := List.length_drop 5 bs
      have hpad0 : encGroupPad (bs.take 5) = encGroup (bs.take 5) := by
        unfold encGroupPad
        rw [htakelen]
        norm_num
      refine ⟨encGroup (bs.take 5) ++ pre', ?_, ?_, ?_⟩
      · rw [hpad0, List.append_assoc]
        congr 2
        simp only [hdroplen]
        congr 1
        rw [(div5_shift _ h5).1, (div5_shift _ h5).2]
        omega
      · intro c hc
        rcases List.mem_append.mp hc with h | h
        · exact encGroup_mem _ c h
        · exact hmem' c h
      · rw [List.length_append, encGroup_length, htakelen, hlen', hdroplen,
          (div5_shift _ h5).1]
        omega

/-- C9: the identifier generated on save of a session with empty ID —
`TrimRight(base32(GenerateRandomKey(32)), "=")` — is, for every 32-byte
entropy outcome, exactly 52 characters over the alphabet `A`-`Z`, `2`-`7`,
with no `=` padding (hence safe as a cookie value and as a bucket name). -/
theorem C9_genId_format (key : Bytes) (h : key.length = 32) :
    (genId key).length = 52 ∧ (∀ c ∈ genId key, c ∈ b32alpha)
      ∧ '=' ∉ genId key := by
  obtain ⟨pre, heq, hmem, hlen⟩ := base32Std_structure key
  rw [h] at heq hlen
  norm_num at heq hlen
  have hgen : genId key = pre := by
    unfold genId
    rw [heq]
    exact trimEq_append_replicate pre 4 (fun c hc => b32alpha_ne_pad c (hmem c hc))
  refine ⟨by rw [hgen, hlen], fun c hc => hmem c (hgen ▸ hc), fun hc => ?_⟩
  exact b32alpha_ne_pad '=' (hmem '=' (hgen ▸ hc)) rfl

/-- Witness for C9 at the all-zero 32-byte key. -/
theorem C9_genId_format_witness :
    (genId (List.replicate 32 0)).length = 52
      ∧ (∀ c ∈ genId (List.replicate 32 0), c ∈ b32alpha)
      ∧ '=' ∉ genId (List.replicate 32 0) :=
  C9_genId_format (List.replicate 32 0) (by simp)

end Boltstore
